import Mathlib

/-!
Formal model of `scripts/validate_theory.py`: the UltraHonk proof/VK layout
decoder and field arithmetic over the BN254 scalar field.

Byte strings are modelled as `List Nat` (each entry one byte value); Python
integers are `Nat` where the source only ever handles non-negative values and
`Int` where the source can go negative (`log_n` arithmetic). Python `assert`
failures are modelled as `Except` errors. All definitions are translated
directly from the source; `List.getD` stands in for Python indexing at the
call sites the claims exercise (which are all in range).
-/

set_option maxRecDepth 100000

/-- BN254 scalar field modulus, `BN254_R` in the source. -/
def BN254_R : Nat := 21888242871839275222246405745257275088548364400416034343698204186575808495617

/-- Big-endian interpretation of a byte string, `int.from_bytes(b, 'big')`. -/
def bytesToNatBE (b : List Nat) : Nat := b.foldl (fun acc d => acc * 256 + d) 0

/-- Big-endian encoding of `x` into `n` bytes, `x.to_bytes(n, 'big')` (truncating). -/
def natToBytesBE : Nat → Nat → List Nat
  | 0, _ => []
  | n+1, x => natToBytesBE n (x / 256) ++ [x % 256]

/-- Source `fr_from_bytes`: decode 32 big-endian bytes and reduce mod `BN254_R`. -/
def fr_from_bytes (b : List Nat) : Nat := bytesToNatBE b % BN254_R

/-- Source `fr_to_bytes`: reduce mod `BN254_R` and emit 32 big-endian bytes. -/
def fr_to_bytes (x : Nat) : List Nat := natToBytesBE 32 (x % BN254_R)

/-- Source `fr_add`. -/
def fr_add (a b : Nat) : Nat := (a + b) % BN254_R

/-- Source `fr_mul`. -/
def fr_mul (a b : Nat) : Nat := (a * b) % BN254_R

/-- Source `fr_inv`: the unguarded Fermat exponentiation `pow(a, BN254_R - 2, BN254_R)`. -/
def fr_inv (a : Nat) : Nat := a ^ (BN254_R - 2) % BN254_R

/-- Source `fr_div`: `fr_mul(a, fr_inv(b))`. -/
def fr_div (a b : Nat) : Nat := fr_mul a (fr_inv b)

/-!
Primality of `BN254_R`, via a Pratt/Lucas certificate chain. The checks are
performed with a fuel-driven binary modular exponentiation that the kernel can
evaluate on 254-bit numbers.
-/

/-- Binary modular exponentiation with explicit fuel: `powModF m f a e = a ^ e % m`
whenever `e < 2 ^ f`. -/
def powModF (m : Nat) : Nat → Nat → Nat → Nat
  | 0, _, _ => 1 % m
  | f+1, a, e =>
    if e = 0 then 1 % m
    else
      let r := powModF m f (a * a % m) (e / 2)
      if e % 2 = 1 then r * a % m else r

theorem powModF_correct (m : Nat) :
    ∀ f a e, e < 2 ^ f → powModF m f a e = a ^ e % m := by
  intro f
  induction f with
  | zero =>
    intro a e he
    have h0 : e = 0 := by simpa using he
    subst h0
    simp [powModF]
  | succ f ih =>
    intro a e he
    by_cases he0 : e = 0
    · subst he0
      simp [powModF]
    · have hdiv : e / 2 < 2 ^ f := by
        rw [pow_succ] at he
        omega
      have hr := ih (a * a % m) (e / 2) hdiv
      rw [powModF, if_neg he0]
      simp only [hr]
      have key : (a * a % m) ^ (e / 2) % m = a ^ (2 * (e / 2)) % m := by
        rw [← Nat.pow_mod, ← pow_two, ← pow_mul]
      rw [key]
      rcases Nat.mod_two_eq_zero_or_one e with h2 | h2
      · rw [if_neg (by omega)]
        have he2 : 2 * (e / 2) = e := by omega
        rw [he2]
      · rw [if_pos h2]
        have he2 : e = 2 * (e / 2) + 1 := by omega
        conv_rhs => rw [he2, pow_succ]
        rw [Nat.mod_mul_mod]

theorem castPowEq (p a e : Nat) : ((a : ZMod p)) ^ e = ((a ^ e % p : ℕ) : ZMod p) := by
  rw [ZMod.natCast_mod, Nat.cast_pow]

theorem prime_dvd_of_cert {q : Nat} (hq : Nat.Prime q) :
    ∀ (l : List (Nat × Nat)), (∀ pe ∈ l, Nat.Prime pe.1) →
      q ∣ (l.map (fun pe => pe.1 ^ pe.2)).prod → ∃ pe ∈ l, pe.1 = q := by
  intro l
  induction l with
  | nil =>
    intro _ hdvd
    simp only [List.map_nil, List.prod_nil, Nat.dvd_one] at hdvd
    exact absurd hdvd hq.ne_one
  | cons pe l ih =>
    intro hl hdvd
    simp only [List.map_cons, List.prod_cons] at hdvd
    rcases (Nat.Prime.dvd_mul hq).mp hdvd with h | h
    · have hqpe : q ∣ pe.1 := hq.dvd_of_dvd_pow h
      have heq : q = pe.1 :=
        (Nat.prime_dvd_prime_iff_eq hq (hl pe (List.mem_cons_self pe l))).mp hqpe
      exact ⟨pe, List.mem_cons_self pe l, heq.symm⟩
    · obtain ⟨pe2, hpe2, hpe2q⟩ := ih (fun x hx => hl x (List.mem_cons_of_mem pe hx)) h
      exact ⟨pe2, List.mem_cons_of_mem pe hpe2, hpe2q⟩

/-- Lucas primality from a fully-factored `p - 1` and a primitive root `g`,
with all modular-exponentiation side conditions stated over `powModF` so that
they can be checked by evaluation. -/
theorem prime_cert (p g : Nat) (l : List (Nat × Nat))
    (hp : 2 ≤ p)
    (hfac : (l.map (fun pe => pe.1 ^ pe.2)).prod = p - 1)
    (hprimes : ∀ pe ∈ l, Nat.Prime pe.1)
    (hfuel : p - 1 < 2 ^ 256)
    (hg : powModF p 256 g (p - 1) = 1)
    (hroots : ∀ pe ∈ l, powModF p 256 g ((p - 1) / pe.1) ≠ 1) :
    Nat.Prime p := by
  have hcorrect := powModF_correct p 256
  apply lucas_primality p (g : ZMod p)
  · rw [castPowEq, ← hcorrect g (p - 1) hfuel, hg, Nat.cast_one]
  · intro q hq hdvd
    rw [← hfac] at hdvd
    obtain ⟨pe, hpe, rfl⟩ := prime_dvd_of_cert hq l hprimes hdvd
    intro hone
    apply hroots pe hpe
    rw [castPowEq] at hone
    have hlt : g ^ ((p - 1) / pe.1) % p < p := Nat.mod_lt _ (by omega)
    have hv : (((g ^ ((p - 1) / pe.1) % p : ℕ) : ZMod p)).val = (((1 : ℕ) : ZMod p)).val := by
      rw [hone, Nat.cast_one]
    rw [ZMod.val_natCast_of_lt hlt, ZMod.val_natCast_of_lt (by omega : (1:ℕ) < p)] at hv
    rw [hcorrect g ((p - 1) / pe.1) (by
      have hle : (p - 1) / pe.1 ≤ p - 1 := Nat.div_le_self _ _
      omega)]
    exact hv

theorem prime_12048837557 : Nat.Prime 12048837557 := by
  apply prime_cert 12048837557 2 [(2,2),(7,2),(661,1),(93001,1)]
  · omega
  · decide
  · intro pe hpe
    simp only [List.mem_cons, List.not_mem_nil, or_false] at hpe
    rcases hpe with rfl | rfl | rfl | rfl <;> norm_num
  · decide
  · decide
  · decide

theorem prime_5156902474397 : Nat.Prime 5156902474397 := by
  apply prime_cert 5156902474397 2 [(2,2),(107,1),(12048837557,1)]
  · omega
  · decide
  · intro pe hpe
    simp only [List.mem_cons, List.not_mem_nil, or_false] at hpe
    rcases hpe with rfl | rfl | rfl
    · norm_num
    · norm_num
    · exact prime_12048837557
  · decide
  · decide
  · decide

theorem prime_1670836401704629 : Nat.Prime 1670836401704629 := by
  apply prime_cert 1670836401704629 2 [(2,2),(3,4),(5156902474397,1)]
  · omega
  · decide
  · intro pe hpe
    simp only [List.mem_cons, List.not_mem_nil, or_false] at hpe
    rcases hpe with rfl | rfl | rfl
    · norm_num
    · norm_num
    · exact prime_5156902474397
  · decide
  · decide
  · decide

theorem prime_639533339 : Nat.Prime 639533339 := by
  apply prime_cert 639533339 2 [(2,1),(229,1),(853,1),(1637,1)]
  · omega
  · decide
  · intro pe hpe
    simp only [List.mem_cons, List.not_mem_nil, or_false] at hpe
    rcases hpe with rfl | rfl | rfl | rfl <;> norm_num
  · decide
  · decide
  · decide

theorem prime_1593227 : Nat.Prime 1593227 := by
  apply prime_cert 1593227 2 [(2,1),(19,1),(41927,1)]
  · omega
  · decide
  · intro pe hpe
    simp only [List.mem_cons, List.not_mem_nil, or_false] at hpe
    rcases hpe with rfl | rfl | rfl <;> norm_num
  · decide
  · decide
  · decide

theorem prime_65865678001877903 : Nat.Prime 65865678001877903 := by
  apply prime_cert 65865678001877903 5 [(2,1),(83,1),(379,1),(1637,1),(639533339,1)]
  · omega
  · decide
  · intro pe hpe
    simp only [List.mem_cons, List.not_mem_nil, or_false] at hpe
    rcases hpe with rfl | rfl | rfl | rfl | rfl
    · norm_num
    · norm_num
    · norm_num
    · norm_num
    · exact prime_639533339
  · decide
  · decide
  · decide

theorem prime_13818364434197438864469338081 : Nat.Prime 13818364434197438864469338081 := by
  apply prime_cert 13818364434197438864469338081 3
    [(2,5),(5,1),(823,1),(1593227,1),(65865678001877903,1)]
  · omega
  · decide
  · intro pe hpe
    simp only [List.mem_cons, List.not_mem_nil, or_false] at hpe
    rcases hpe with rfl | rfl | rfl | rfl | rfl
    · norm_num
    · norm_num
    · norm_num
    · exact prime_1593227
    · exact prime_65865678001877903
  · decide
  · decide
  · decide

theorem prime_405928799 : Nat.Prime 405928799 := by
  apply prime_cert 405928799 22 [(2,1),(11,1),(3691,1),(4999,1)]
  · omega
  · decide
  · intro pe hpe
    simp only [List.mem_cons, List.not_mem_nil, or_false] at hpe
    rcases hpe with rfl | rfl | rfl | rfl <;> norm_num
  · decide
  · decide
  · decide

/-- The BN254 scalar field modulus is prime. -/
theorem bn254_r_prime : Nat.Prime BN254_R := by
  apply prime_cert BN254_R 5
    [(2,28),(3,2),(13,1),(29,1),(983,1),(11003,1),(237073,1),(405928799,1),
     (1670836401704629,1),(13818364434197438864469338081,1)]
  · rw [BN254_R]; omega
  · decide
  · intro pe hpe
    simp only [List.mem_cons, List.not_mem_nil, or_false] at hpe
    rcases hpe with rfl | rfl | rfl | rfl | rfl | rfl | rfl | rfl | rfl | rfl
    · norm_num
    · norm_num
    · norm_num
    · norm_num
    · norm_num
    · norm_num
    · norm_num
    · exact prime_405928799
    · exact prime_1670836401704629
    · exact prime_13818364434197438864469338081
  · decide
  · decide
  · decide

instance : Fact (Nat.Prime BN254_R) := ⟨bn254_r_prime⟩

instance : NeZero BN254_R := ⟨by norm_num [BN254_R]⟩

/-! Round-trip of the big-endian byte codec. -/

theorem bytesToNatBE_append_one (l : List Nat) (d : Nat) :
    bytesToNatBE (l ++ [d]) = bytesToNatBE l * 256 + d := by
  unfold bytesToNatBE
  rw [List.foldl_append]
  rfl

theorem bytesToNatBE_natToBytesBE : ∀ (n x : Nat),
    bytesToNatBE (natToBytesBE n x) = x % 256 ^ n := by
  intro n
  induction n with
  | zero =>
    intro x
    simp [natToBytesBE, bytesToNatBE, Nat.mod_one]
  | succ n ih =>
    intro x
    rw [show natToBytesBE (n+1) x = natToBytesBE n (x / 256) ++ [x % 256] from rfl]
    rw [bytesToNatBE_append_one, ih]
    have hk : 0 < 256 ^ n := Nat.pos_pow_of_pos n (by norm_num)
    have hqk : x / 256 % 256 ^ n < 256 ^ n := Nat.mod_lt _ hk
    have hr : x % 256 < 256 := Nat.mod_lt _ (by norm_num)
    have hx1 : x = 256 * 256 ^ n * (x / 256 / 256 ^ n)
        + (256 * (x / 256 % 256 ^ n) + x % 256) := by
      have h1 := Nat.div_add_mod x 256
      have h2 := Nat.div_add_mod (x / 256) (256 ^ n)
      calc x = 256 * (x / 256) + x % 256 := h1.symm
        _ = 256 * (256 ^ n * (x / 256 / 256 ^ n) + x / 256 % 256 ^ n) + x % 256 := by rw [h2]
        _ = 256 * 256 ^ n * (x / 256 / 256 ^ n) + (256 * (x / 256 % 256 ^ n) + x % 256) := by
            ring
    have h256 : (256 : Nat) ^ (n + 1) = 256 * 256 ^ n := by
      rw [pow_succ]; ring
    have hlt2 : 256 * (x / 256 % 256 ^ n) + x % 256 < 256 * 256 ^ n := by omega
    rw [h256]
    conv_rhs => rw [hx1]
    rw [Nat.mul_add_mod]
    rw [Nat.mod_eq_of_lt hlt2]
    omega

/-! Layout calculator and proof decoder. -/

/-- Decode errors for `Proof.from_bytes`: the source's two `assert`s, named as
in the spec's error taxonomy. -/
inductive ProofError
  | misalignedLength
  | sizeMismatch (expected actual : Int)
deriving DecidableEq

/-- Parsed UltraHonk proof, source dataclass `Proof`. -/
structure Proof where
  data : List (List Nat)
  log_n : Int
  is_zk : Bool
deriving DecidableEq

/-- Source `Proof.expected_fr_count`: running-sum layout calculation. -/
def Proof.expected_fr_count (log_n : Int) (is_zk : Bool) : Int :=
  let size : Int := 0
  let size := size + 16
  let size := size + 16
  let size := if is_zk then size + 3 else size
  let univariate_len : Int := if is_zk then 9 else 8
  let size := size + log_n * univariate_len
  let size := size + (if is_zk then 41 else 40)
  let size := if is_zk then size + 8 else size
  let size := size + (log_n - 1) * 2
  let size := size + log_n
  let size := if is_zk then size + 2 else size
  let size := size + 4
  let size := size + (if is_zk then 2 else 1)
  size

/-- The 32-byte chunking loop of `Proof.from_bytes`:
`data[i*32:(i+1)*32]` for `i in range(count)`. -/
def chunkList (data : List Nat) (count : Nat) : List (List Nat) :=
  (List.range count).map (fun i => (data.drop (i * 32)).take 32)

/-- Source `Proof.from_bytes`. -/
def Proof.from_bytes (data : List Nat) (log_n : Int) (is_zk : Bool) :
    Except ProofError Proof :=
  if data.length % 32 ≠ 0 then .error .misalignedLength
  else if (data.length : Int) / 32 ≠ Proof.expected_fr_count log_n is_zk then
    .error (.sizeMismatch (Proof.expected_fr_count log_n is_zk) ((data.length : Int) / 32))
  else .ok { data := chunkList data (data.length / 32), log_n := log_n, is_zk := is_zk }

/-- Source `Proof.pairing_point_object`: `self.data[0:16]`. -/
def Proof.pairing_point_object (p : Proof) : List (List Nat) := p.data.take 16

/-- Source `Proof.wire_commitment`: `self.data[offset] + self.data[offset+1]`. -/
def Proof.wire_commitment (p : Proof) (idx : Nat) : List Nat :=
  let offset := 16 + idx * 2
  p.data.getD offset [] ++ p.data.getD (offset + 1) []

/-- Source `Proof.libra_sum`: `None` unless `is_zk`, else `self.data[16+16+2]`. -/
def Proof.libra_sum (p : Proof) : Option (List Nat) :=
  if p.is_zk then some (p.data.getD (16 + 16 + 2) []) else none

/-- Source `Proof.sumcheck_univariate`. -/
def Proof.sumcheck_univariate (p : Proof) (round : Nat) : List (List Nat) :=
  let base := 16 + 16 + (if p.is_zk then 3 else 0)
  let univariate_len := if p.is_zk then 9 else 8
  (p.data.drop (base + round * univariate_len)).take univariate_len

/-- Source `Proof.sumcheck_evaluations`. -/
def Proof.sumcheck_evaluations (p : Proof) : List (List Nat) :=
  let base := 16 + 16 + (if p.is_zk then 3 else 0)
  let univariate_len : Int := if p.is_zk then 9 else 8
  let base2 := (base : Int) + p.log_n * univariate_len
  let num_evals := if p.is_zk then 41 else 40
  (p.data.drop base2.toNat).take num_evals

/-! Verification-key decoder. -/

/-- Decode error for `VerificationKey.from_bytes`. -/
inductive VKError
  | sizeMismatch (expected actual : Nat)
deriving DecidableEq

/-- Parsed verification key, source dataclass `VerificationKey`. -/
structure VerificationKey where
  log2_circuit_size : Nat
  log2_domain_size : Nat
  num_public_inputs : Nat
  commitments : List (List Nat)
deriving DecidableEq

/-- Source `VerificationKey.from_bytes`. -/
def VerificationKey.from_bytes (data : List Nat) : Except VKError VerificationKey :=
  if data.length ≠ 1888 then .error (.sizeMismatch 1888 data.length)
  else .ok
    { log2_circuit_size := bytesToNatBE (data.take 32)
      log2_domain_size := bytesToNatBE ((data.drop 32).take 32)
      num_public_inputs := bytesToNatBE ((data.drop 64).take 32)
      commitments := (List.range 28).map (fun i => (data.drop (96 + i * 64)).take 64) }

/-- Source `VerificationKey.circuit_size`. -/
def VerificationKey.circuit_size (vk : VerificationKey) : Nat := 2 ^ vk.log2_circuit_size

/-! The auto-detection recovery loop of `validate_proof_structure`
(`for try_zk in [True, False]: for try_log in range(4, 30): ... break`).
The `break` leaves only the inner loop, so a later `try_zk` pass can
overwrite an earlier match; `foldl` over `[true, false]` with an inner
`find?` models exactly that. -/
def detect_config (length : Nat) (log_n : Int) (is_zk : Bool) : Int × Bool :=
  [true, false].foldl
    (fun st try_zk =>
      match (List.range' 4 26).find?
          (fun try_log => Proof.expected_fr_count (try_log : Int) try_zk * 32 == (length : Int)) with
      | some try_log => ((try_log : Int), try_zk)
      | none => st)
    (log_n, is_zk)

/-! Sumcheck round-zero check, source `validate_sumcheck_round_zero`.
The source only prints observations; the constructors below record which
branch the source takes (the source has no failure path here — `fr_div`
is guarded by `if ls != 0`). -/
inductive SumcheckOutcome
  | degenerate
  | implied (challenge : Nat)
  | zeroLibraSkipped
  | noLibra
  | nonzkZero
  | nonzkNonzero
deriving DecidableEq

/-- Source `validate_sumcheck_round_zero`, with each printing branch mapped to
a `SumcheckOutcome` constructor. -/
def validate_sumcheck_round_zero (p : Proof) (is_zk : Bool) : SumcheckOutcome :=
  let univariate := p.sumcheck_univariate 0
  let u0 := fr_from_bytes (univariate.getD 0 [])
  let u1 := fr_from_bytes (univariate.getD 1 [])
  let sum_u := fr_add u0 u1
  if is_zk then
    match p.libra_sum with
    | some ls_bytes =>
      if ls_bytes.isEmpty then SumcheckOutcome.noLibra
      else
        let ls := fr_from_bytes ls_bytes
        if sum_u = ls then SumcheckOutcome.degenerate
        else if ls ≠ 0 then SumcheckOutcome.implied (fr_div sum_u ls)
        else SumcheckOutcome.zeroLibraSkipped
    | none => SumcheckOutcome.noLibra
  else
    if sum_u = 0 then SumcheckOutcome.nonzkZero
    else SumcheckOutcome.nonzkNonzero

/-! Helper lemmas about the chunking loop and the decoders. -/

theorem getD_map_range {α : Type} (f : Nat → α) (n i : Nat) (d : α) (h : i < n) :
    (((List.range n).map f)).getD i d = f i := by
  have hlen : i < ((List.range n).map f).length := by
    simpa using h
  rw [List.getD_eq_getElem _ _ hlen, List.getElem_map, List.getElem_range]

/-- Structural-recursion view of the chunking loop, used to prove flattening. -/
def chunksRec : Nat → List Nat → List (List Nat)
  | 0, _ => []
  | n+1, data => data.take 32 :: chunksRec n (data.drop 32)

theorem chunkList_eq_chunksRec : ∀ (n : Nat) (data : List Nat),
    chunkList data n = chunksRec n data := by
  intro n
  induction n with
  | zero => intro data; rfl
  | succ n ih =>
    intro data
    unfold chunkList chunksRec
    rw [List.range_succ_eq_map, List.map_cons, List.map_map]
    congr 1
    rw [← ih (data.drop 32)]
    unfold chunkList
    apply List.map_congr_left
    intro i _
    simp only [Function.comp_apply]
    rw [List.drop_drop]
    congr 2
    omega

theorem chunksRec_length : ∀ (n : Nat) (data : List Nat), (chunksRec n data).length = n := by
  intro n
  induction n with
  | zero => intro data; rfl
  | succ n ih => intro data; simp [chunksRec, ih]

theorem chunksRec_flatten : ∀ (n : Nat) (data : List Nat),
    data.length = 32 * n → (chunksRec n data).flatten = data := by
  intro n
  induction n with
  | zero =>
    intro data h
    have : data = [] := List.eq_nil_of_length_eq_zero (by omega)
    simp [this, chunksRec]
  | succ n ih =>
    intro data h
    have hdrop : (data.drop 32).length = 32 * n := by
      simp only [List.length_drop]
      omega
    simp only [chunksRec, List.flatten_cons, ih (data.drop 32) hdrop]
    exact List.take_append_drop 32 data

theorem chunkList_getD (data : List Nat) (n i : Nat) (h : i < n) :
    (chunkList data n).getD i [] = (data.drop (i * 32)).take 32 := by
  unfold chunkList
  exact getD_map_range _ n i [] h

/-- Closed forms of the layout calculator, one per `is_zk` value. -/
theorem expected_fr_count_closed (log_n : Int) :
    Proof.expected_fr_count log_n true = 90 + 12 * log_n
    ∧ Proof.expected_fr_count log_n false = 75 + 11 * log_n := by
  constructor <;> (simp only [Proof.expected_fr_count, Bool.false_eq_true, if_true, if_false]; ring)

theorem from_bytes_misaligned (data : List Nat) (log_n : Int) (is_zk : Bool)
    (h : data.length % 32 ≠ 0) :
    Proof.from_bytes data log_n is_zk = .error .misalignedLength := by
  unfold Proof.from_bytes
  rw [if_pos h]

theorem from_bytes_size_mismatch (data : List Nat) (log_n : Int) (is_zk : Bool)
    (h32 : data.length % 32 = 0)
    (hne : (data.length : Int) / 32 ≠ Proof.expected_fr_count log_n is_zk) :
    Proof.from_bytes data log_n is_zk =
      .error (.sizeMismatch (Proof.expected_fr_count log_n is_zk) ((data.length : Int) / 32)) := by
  unfold Proof.from_bytes
  rw [if_neg (by omega), if_pos hne]

theorem from_bytes_ok (data : List Nat) (log_n : Int) (is_zk : Bool)
    (h : (data.length : Int) = 32 * Proof.expected_fr_count log_n is_zk) :
    Proof.from_bytes data log_n is_zk =
      .ok { data := chunkList data (data.length / 32), log_n := log_n, is_zk := is_zk } := by
  unfold Proof.from_bytes
  rw [if_neg (by omega), if_neg (by omega)]

/-!
Claims. Each claim of the specification is settled by one theorem below,
with a closed witness instance where the theorem carries hypotheses.
-/

/-- Claim C1: for `log_n = 17, is_zk = true` the layout calculator returns 294,
matching the closed-form section sum `16+16+3+17*9+41+8+16*2+17+2+4+2`; every
9408-byte buffer decodes successfully and every 9407- or 9409-byte buffer
fails to decode. -/
theorem claim_C1_count_294_and_decode :
    Proof.expected_fr_count 17 true = 294
    ∧ Proof.expected_fr_count 17 true = 16 + 16 + 3 + 17 * 9 + 41 + 8 + 16 * 2 + 17 + 2 + 4 + 2
    ∧ (∀ data : List Nat, data.length = 9408 →
        ∃ p, Proof.from_bytes data 17 true = Except.ok p)
    ∧ (∀ data : List Nat, data.length = 9407 →
        ∃ e, Proof.from_bytes data 17 true = Except.error e)
    ∧ (∀ data : List Nat, data.length = 9409 →
        ∃ e, Proof.from_bytes data 17 true = Except.error e) := by
  refine ⟨by decide, by decide, ?_, ?_, ?_⟩
  · intro data h
    exact ⟨_, from_bytes_ok data 17 true (by rw [h]; decide)⟩
  · intro data h
    exact ⟨_, from_bytes_misaligned data 17 true (by omega)⟩
  · intro data h
    exact ⟨_, from_bytes_misaligned data 17 true (by omega)⟩

theorem claim_C1_witness :
    (∃ p, Proof.from_bytes (List.replicate 9408 0) 17 true = Except.ok p)
    ∧ (∃ e, Proof.from_bytes (List.replicate 9407 0) 17 true = Except.error e)
    ∧ (∃ e, Proof.from_bytes (List.replicate 9409 0) 17 true = Except.error e) :=
  ⟨claim_C1_count_294_and_decode.2.2.1 _ (List.length_replicate 9408 0),
   claim_C1_count_294_and_decode.2.2.2.1 _ (List.length_replicate 9407 0),
   claim_C1_count_294_and_decode.2.2.2.2 _ (List.length_replicate 9409 0)⟩

/-- Claim C3: proof decoding fails with `misalignedLength` whenever the length
is not a multiple of 32; fails with `sizeMismatch` (carrying both counts)
whenever the 32-aligned length disagrees with `expected_fr_count`; and on an
exact-length buffer succeeds, returning precisely the consecutive 32-byte
chunks of the input in order (their concatenation recovers the input). The
`Except` result carries no partial structure on failure. -/
theorem claim_C3_decode_errors_and_chunks :
    (∀ (data : List Nat) (log_n : Int) (is_zk : Bool), data.length % 32 ≠ 0 →
      Proof.from_bytes data log_n is_zk = Except.error ProofError.misalignedLength)
    ∧ (∀ (data : List Nat) (log_n : Int) (is_zk : Bool), data.length % 32 = 0 →
        (data.length : Int) / 32 ≠ Proof.expected_fr_count log_n is_zk →
        Proof.from_bytes data log_n is_zk =
          Except.error (ProofError.sizeMismatch (Proof.expected_fr_count log_n is_zk)
            ((data.length : Int) / 32)))
    ∧ (∀ (data : List Nat) (log_n : Int) (is_zk : Bool),
        (data.length : Int) = 32 * Proof.expected_fr_count log_n is_zk →
        ∃ p : Proof,
          Proof.from_bytes data log_n is_zk = Except.ok p
          ∧ p.log_n = log_n ∧ p.is_zk = is_zk
          ∧ (p.data).length = data.length / 32
          ∧ (p.data).flatten = data
          ∧ ∀ i, i < data.length / 32 → (p.data).getD i [] = (data.drop (i * 32)).take 32) := by
  refine ⟨from_bytes_misaligned, from_bytes_size_mismatch, ?_⟩
  intro data log_n is_zk h
  refine ⟨_, from_bytes_ok data log_n is_zk h, rfl, rfl, ?_, ?_, ?_⟩
  · rw [chunkList_eq_chunksRec]
    exact chunksRec_length _ _
  · rw [chunkList_eq_chunksRec]
    exact chunksRec_flatten _ _ (by omega)
  · intro i hi
    exact chunkList_getD data _ i hi

theorem claim_C3_witness :
    Proof.from_bytes (List.replicate 1 0) (-6) false
      = Except.error ProofError.misalignedLength
    ∧ Proof.from_bytes (List.replicate 32 0) 0 false
      = Except.error (ProofError.sizeMismatch 75 1)
    ∧ (∃ p : Proof,
        Proof.from_bytes (List.replicate 288 0) (-6) false = Except.ok p
        ∧ p.log_n = -6 ∧ p.is_zk = false
        ∧ (p.data).length = 9
        ∧ (p.data).flatten = List.replicate 288 0
        ∧ ∀ i, i < 9 →
            (p.data).getD i [] = ((List.replicate 288 0).drop (i * 32)).take 32) :=
  ⟨claim_C3_decode_errors_and_chunks.1 _ (-6) false
     (by rw [List.length_replicate]; decide),
   claim_C3_decode_errors_and_chunks.2.1 _ 0 false
     (by rw [List.length_replicate]) (by rw [List.length_replicate]; decide),
   claim_C3_decode_errors_and_chunks.2.2 _ (-6) false
     (by rw [List.length_replicate]; decide)⟩

/-- Claim C4: VK decoding fails with `sizeMismatch` for every length other
than 1888 bytes (in particular 1887 and 1889); at exactly 1888 bytes it
succeeds, the three headers are the plain big-endian values of the first three
32-byte slices (no reduction mod `BN254_R`, even for values at or above it),
and each of the 28 commitments equals byte-for-byte the 64-byte slice of the
input starting at offset `96 + 64*i`. -/
theorem claim_C4_vk_decode :
    (∀ data : List Nat, data.length ≠ 1888 →
      VerificationKey.from_bytes data = Except.error (VKError.sizeMismatch 1888 data.length))
    ∧ (∀ data : List Nat, data.length = 1888 →
        ∃ vk : VerificationKey,
          VerificationKey.from_bytes data = Except.ok vk
          ∧ vk.log2_circuit_size = bytesToNatBE (data.take 32)
          ∧ vk.log2_domain_size = bytesToNatBE ((data.drop 32).take 32)
          ∧ vk.num_public_inputs = bytesToNatBE ((data.drop 64).take 32)
          ∧ vk.commitments.length = 28
          ∧ ∀ i, i < 28 → vk.commitments.getD i [] = (data.drop (96 + i * 64)).take 64) := by
  constructor
  · intro data h
    unfold VerificationKey.from_bytes
    rw [if_pos h]
  · intro data h
    refine ⟨{ log2_circuit_size := bytesToNatBE (data.take 32)
              log2_domain_size := bytesToNatBE ((data.drop 32).take 32)
              num_public_inputs := bytesToNatBE ((data.drop 64).take 32)
              commitments := (List.range 28).map (fun i => (data.drop (96 + i * 64)).take 64) },
            ?_, rfl, rfl, rfl, ?_, ?_⟩
    · unfold VerificationKey.from_bytes
      rw [if_neg (by omega)]
    · simp
    · intro i hi
      exact getD_map_range (fun i => (data.drop (96 + i * 64)).take 64) 28 i [] hi

theorem claim_C4_witness :
    VerificationKey.from_bytes (List.replicate 1887 0)
      = Except.error (VKError.sizeMismatch 1888 1887)
    ∧ VerificationKey.from_bytes (List.replicate 1889 0)
      = Except.error (VKError.sizeMismatch 1888 1889)
    ∧ (∃ vk : VerificationKey,
        VerificationKey.from_bytes (List.replicate 1888 255) = Except.ok vk
        ∧ vk.log2_circuit_size = bytesToNatBE ((List.replicate 1888 255).take 32)
        ∧ vk.log2_domain_size = bytesToNatBE (((List.replicate 1888 255).drop 32).take 32)
        ∧ vk.num_public_inputs = bytesToNatBE (((List.replicate 1888 255).drop 64).take 32)
        ∧ vk.commitments.length = 28
        ∧ ∀ i, i < 28 → vk.commitments.getD i []
            = ((List.replicate 1888 255).drop (96 + i * 64)).take 64)
    ∧ BN254_R ≤ bytesToNatBE ((List.replicate 1888 255).take 32) :=
  ⟨by
    have h := claim_C4_vk_decode.1 (List.replicate 1887 0)
      (by rw [List.length_replicate]; decide)
    rwa [List.length_replicate] at h,
   by
    have h := claim_C4_vk_decode.1 (List.replicate 1889 0)
      (by rw [List.length_replicate]; decide)
    rwa [List.length_replicate] at h,
   claim_C4_vk_decode.2 _ (by rw [List.length_replicate]),
   by decide⟩

/-- Claim C5 counterexample: `expected_fr_count` does not fail fast for
`log_n < 2`; it returns a computed count — 75 at `log_n = 0, is_zk = false` —
and for negative `log_n` the computed count can indeed be negative. -/
theorem claim_C5_counterexample :
    Proof.expected_fr_count 0 false = 75 ∧ Proof.expected_fr_count (-8) false = -13 := by
  exact ⟨by decide, by decide⟩

/-- Claim C5 amended: for `log_n < 2` the layout calculator raises no
`InvalidParameter` error; it is total and returns the computed closed-form
count `75 + 11·log_n` (non-ZK) resp. `90 + 12·log_n` (ZK). -/
theorem claim_C5_amended (log_n : Int) (hlt : log_n < 2) :
    Proof.expected_fr_count log_n false = 75 + 11 * log_n
    ∧ Proof.expected_fr_count log_n true = 90 + 12 * log_n :=
  ⟨(expected_fr_count_closed log_n).2, (expected_fr_count_closed log_n).1⟩

theorem claim_C5_witness :
    Proof.expected_fr_count 0 false = 75 + 11 * 0
    ∧ Proof.expected_fr_count 0 true = 90 + 12 * 0 :=
  ⟨(claim_C5_amended 0 (by decide)).1, (claim_C5_amended 0 (by decide)).2⟩

/-- Claim C9: for valid `log_n` (at least 2) the element count strictly
increases in `log_n` for each fixed `is_zk`, and the ZK count strictly exceeds
the non-ZK count at the same `log_n`. -/
theorem claim_C9_monotonicity (log_n : Int) (h : 2 ≤ log_n) :
    (∀ is_zk : Bool, Proof.expected_fr_count log_n is_zk
        < Proof.expected_fr_count (log_n + 1) is_zk)
    ∧ Proof.expected_fr_count log_n false < Proof.expected_fr_count log_n true := by
  have h1 := expected_fr_count_closed log_n
  have h2 := expected_fr_count_closed (log_n + 1)
  refine ⟨?_, ?_⟩
  · intro zk
    cases zk
    · rw [h1.2, h2.2]; omega
    · rw [h1.1, h2.1]; omega
  · rw [h1.1, h1.2]; omega

theorem claim_C9_witness :
    (∀ is_zk : Bool, Proof.expected_fr_count 2 is_zk < Proof.expected_fr_count 3 is_zk)
    ∧ Proof.expected_fr_count 2 false < Proof.expected_fr_count 2 true :=
  ⟨(claim_C9_monotonicity 2 (by decide)).1, (claim_C9_monotonicity 2 (by decide)).2⟩

/-- Claim C10: the byte length does not determine the parameters inside the
search range — `(7, true)` and `(9, false)` both yield 174 elements
(5568 bytes) — and because the recovery loop's `break` leaves only the inner
loop, the later `is_zk = false` pass overwrites the earlier ZK match: for a
5568-byte buffer the loop ends with `(9, false)` whatever the starting
parameters were. -/
theorem claim_C10_ambiguous_length :
    Proof.expected_fr_count 7 true = 174
    ∧ Proof.expected_fr_count 9 false = 174
    ∧ ((7 : Int), true) ≠ ((9 : Int), false)
    ∧ (∀ (log_n : Int) (is_zk : Bool), detect_config 5568 log_n is_zk = (9, false)) := by
  refine ⟨by decide, by decide, by decide, ?_⟩
  intro log_n is_zk
  rfl

/-- Claim C2 (a code bug relative to the documented design): the source's
`fr_inv` does not guard zero — the Fermat exponentiation
`pow(0, BN254_R - 2, BN254_R)` silently returns 0 instead of raising an
`ArithmeticError`, and `fr_div a 0` therefore silently returns 0 as well. -/
theorem fr_inv_eq (a : Nat) : fr_inv a = a ^ (BN254_R - 2) % BN254_R := rfl

theorem zero_pow_sub_two : (0:Nat) ^ (BN254_R - 2) = 0 :=
  zero_pow (by norm_num [BN254_R])

theorem claim_C2_inv_zero_returns_zero : fr_inv 0 = 0 ∧ fr_div 1 0 = 0 := by
  have h0 : fr_inv 0 = 0 := by
    rw [fr_inv_eq 0, zero_pow_sub_two, Nat.zero_mod]
  refine ⟨h0, ?_⟩
  show fr_mul 1 (fr_inv 0) = 0
  rw [h0]
  show (1 * 0) % BN254_R = 0
  norm_num

/-- Claim C7: decoding the canonical 32-byte encoding of any `a < BN254_R`
returns `a`, and any 32-byte input whose big-endian value is at least
`BN254_R` still decodes (it is never rejected), to that value reduced mod
`BN254_R`. -/
theorem claim_C7_roundtrip :
    (∀ a : Nat, a < BN254_R → fr_from_bytes (fr_to_bytes a) = a)
    ∧ (∀ b : List Nat, b.length = 32 → BN254_R ≤ bytesToNatBE b →
        fr_from_bytes b = bytesToNatBE b % BN254_R ∧ fr_from_bytes b < BN254_R) := by
  constructor
  · intro a ha
    unfold fr_from_bytes fr_to_bytes
    rw [bytesToNatBE_natToBytesBE]
    have hlt : a % BN254_R = a := Nat.mod_eq_of_lt ha
    rw [hlt]
    have h32 : a < 256 ^ 32 := lt_of_lt_of_le ha (by norm_num [BN254_R])
    rw [Nat.mod_eq_of_lt h32, hlt]
  · intro b _ _
    exact ⟨rfl, Nat.mod_lt _ (by norm_num [BN254_R])⟩

theorem claim_C7_witness :
    fr_from_bytes (fr_to_bytes (BN254_R - 1)) = BN254_R - 1
    ∧ (fr_from_bytes (List.replicate 32 255)
          = bytesToNatBE (List.replicate 32 255) % BN254_R
        ∧ fr_from_bytes (List.replicate 32 255) < BN254_R) :=
  ⟨claim_C7_roundtrip.1 _ (by decide),
   claim_C7_roundtrip.2 _ (List.length_replicate 32 255) (by decide)⟩

/-- Claim C8: division followed by multiplication by the same nonzero divisor
is the identity on canonical field elements: for `a, b < BN254_R`, `b ≠ 0`,
`fr_mul (fr_div a b) b = a`. This uses primality of `BN254_R` (Fermat). -/
theorem claim_C8_div_mul_cancel (a b : Nat) (ha : a < BN254_R) (hb : b < BN254_R)
    (hb0 : b ≠ 0) : fr_mul (fr_div a b) b = a := by
  have hR2 : 2 ≤ BN254_R := by norm_num [BN254_R]
  have hbz : ((b : ZMod BN254_R)) ≠ 0 := by
    intro hzero
    apply hb0
    have hval := congrArg ZMod.val hzero
    rwa [ZMod.val_natCast_of_lt hb, ZMod.val_zero] at hval
  unfold fr_mul fr_div fr_inv
  have hcast : (((a * (b ^ (BN254_R - 2) % BN254_R) % BN254_R * b : ℕ)) : ZMod BN254_R)
      = ((a : ℕ) : ZMod BN254_R) := by
    push_cast [ZMod.natCast_mod]
    rw [mul_assoc, ← pow_succ]
    have he : BN254_R - 2 + 1 = BN254_R - 1 := by omega
    rw [he, ZMod.pow_card_sub_one_eq_one hbz, mul_one]
  have hval := congrArg ZMod.val hcast
  rwa [ZMod.val_natCast, ZMod.val_natCast_of_lt ha] at hval

theorem claim_C8_witness : fr_mul (fr_div 2 3) 3 = 2 :=
  claim_C8_div_mul_cancel 2 3 (by decide) (by decide) (by decide)

/-- Claim C6 amended: in the ZK branch with a present, nonempty `libra_sum`
element: when it decodes to 0 and the round-0 coefficient sum is nonzero, the
check silently skips the implied-multiplier computation — the source guards
the division with `if ls != 0`, so no `ArithmeticError` arises (and `fr_div`
itself cannot raise, see claim C2); when `libra_sum` is nonzero and differs
from the sum, the check reports the implied multiplier `sum / libra_sum`
without raising. -/
theorem claim_C6_zero_libra_behavior (p : Proof) (lsb : List Nat)
    (hl : p.libra_sum = some lsb) (hne : lsb.isEmpty = false) :
    (fr_from_bytes lsb = 0 →
      fr_add (fr_from_bytes ((p.sumcheck_univariate 0).getD 0 []))
          (fr_from_bytes ((p.sumcheck_univariate 0).getD 1 [])) ≠ 0 →
      validate_sumcheck_round_zero p true = SumcheckOutcome.zeroLibraSkipped)
    ∧ (fr_from_bytes lsb ≠ 0 →
      fr_add (fr_from_bytes ((p.sumcheck_univariate 0).getD 0 []))
          (fr_from_bytes ((p.sumcheck_univariate 0).getD 1 [])) ≠ fr_from_bytes lsb →
      validate_sumcheck_round_zero p true
        = SumcheckOutcome.implied
            (fr_div (fr_add (fr_from_bytes ((p.sumcheck_univariate 0).getD 0 []))
                (fr_from_bytes ((p.sumcheck_univariate 0).getD 1 [])))
              (fr_from_bytes lsb))) := by
  constructor
  · intro hz hs
    unfold validate_sumcheck_round_zero
    rw [hl]
    simp only [hne, Bool.false_eq_true, if_false, if_true]
    rw [if_neg (by rw [hz]; exact hs), if_neg (by rw [hz]; simp)]
  · intro hz hs
    unfold validate_sumcheck_round_zero
    rw [hl]
    simp only [hne, Bool.false_eq_true, if_false, if_true]
    rw [if_neg hs, if_pos hz]

/-- All-zero 32-byte chunk. -/
def zeroChunk : List Nat := List.replicate 32 0

/-- 32-byte chunk encoding the field element 1. -/
def oneChunk : List Nat := List.replicate 31 0 ++ [1]

/-- 32-byte chunk encoding the field element 2. -/
def twoChunk : List Nat := List.replicate 31 0 ++ [2]

/-- A 294-element ZK proof (`log_n = 17`) whose `libra_sum` chunk (index 34)
is all zeroes and whose round-0 first coefficient (index 35) encodes 1. -/
def zkZeroLibraProof : Proof :=
  { data := (List.range 294).map (fun i => if i = 35 then oneChunk else zeroChunk),
    log_n := 17, is_zk := true }

/-- A 294-element ZK proof whose `libra_sum` chunk encodes 1 and whose round-0
first coefficient encodes 2. -/
def zkImpliedProof : Proof :=
  { data := (List.range 294).map
      (fun i => if i = 34 then oneChunk else if i = 35 then twoChunk else zeroChunk),
    log_n := 17, is_zk := true }

/-- Claim C6 counterexample: a concrete ZK proof with correctly-sized layout
whose `libra_sum` decodes to 0 while the round-0 coefficient sum is 1 ≠ 0; the
check returns the silent-skip outcome — it does not fail with an
`ArithmeticError` (the source never executes the division in this branch). -/
theorem claim_C6_counterexample :
    (zkZeroLibraProof).is_zk = true
    ∧ ((zkZeroLibraProof).data.length : Int) = Proof.expected_fr_count 17 true
    ∧ (zkZeroLibraProof).libra_sum = some zeroChunk
    ∧ fr_from_bytes zeroChunk = 0
    ∧ fr_add (fr_from_bytes (((zkZeroLibraProof).sumcheck_univariate 0).getD 0 []))
        (fr_from_bytes (((zkZeroLibraProof).sumcheck_univariate 0).getD 1 [])) = 1
    ∧ validate_sumcheck_round_zero zkZeroLibraProof true = SumcheckOutcome.zeroLibraSkipped :=
  ⟨rfl, by decide, by decide, by decide, by decide, by decide⟩

theorem claim_C6_witness :
    validate_sumcheck_round_zero zkZeroLibraProof true = SumcheckOutcome.zeroLibraSkipped
    ∧ validate_sumcheck_round_zero zkImpliedProof true
        = SumcheckOutcome.implied
            (fr_div (fr_add (fr_from_bytes (((zkImpliedProof).sumcheck_univariate 0).getD 0 []))
                (fr_from_bytes (((zkImpliedProof).sumcheck_univariate 0).getD 1 [])))
              (fr_from_bytes oneChunk)) := by
  constructor
  · exact (claim_C6_zero_libra_behavior zkZeroLibraProof zeroChunk (by decide) (by decide)).1
      (by decide) (by decide)
  · exact (claim_C6_zero_libra_behavior zkImpliedProof oneChunk (by decide) (by decide)).2
      (by decide) (by decide)
